/-
Verification of the httpxdb client module (`src/client/client.py`).

The Python source is shallowly embedded: every stateful method becomes a pure
Lean function from an explicit pre-state (plus the values the runtime would
supply, such as monotonic-clock readings) to a post-state together with the
observable effects (sleeps performed, events emitted, values returned).
Python floats arising from `time.monotonic` arithmetic and token balances are
modelled as rationals (ℚ); Python `int` parameters stay `Int`.
-/
import Mathlib

namespace Httpxdb

/-! Section: RateLimitContext (`src/client/client.py`, lines 19-62).

State of one `RateLimitContext` instance.  The Python attributes `_max_calls`,
`_rate`, `_tokens`, `_last` are carried; the `asyncio.Lock` and
`asyncio.Semaphore` only serialize access and bound concurrency, so in this
sequential embedding they have no state beyond the semaphore's initial value,
which is checked at construction. -/

structure RateState where
  max_calls : ℚ
  rate : ℚ
  tokens : ℚ
  last : ℚ
  deriving Repr, DecidableEq

/-- Embedding of `RateLimitContext.__init__(max_calls, period, max_concurrency=1)`
(lines 20-26).  The body performs no validation of its own: it computes
`self._rate = max_calls / period` (a `ZeroDivisionError` exactly when
`period = 0`), sets `self._tokens = max_calls`, records `time.monotonic()`
into `self._last`, and builds `asyncio.Semaphore(max_concurrency)` (which
raises `ValueError` exactly when `max_concurrency < 0`).  Errors are modelled
by `Except`. -/
def RateLimitContext.init (max_calls period max_concurrency : Int) (now : ℚ) :
    Except String RateState :=
  if period = 0 then
    .error "ZeroDivisionError"
  else if max_concurrency < 0 then
    .error "ValueError"
  else
    .ok { max_calls := (max_calls : ℚ)
          rate := (max_calls : ℚ) / (period : ℚ)
          tokens := (max_calls : ℚ)
          last := now }

/-- Embedding of `RateLimitContext.set_used_tokens(used)` (lines 28-30):
`self._tokens = self._max_calls - used`. -/
def RateLimitContext.set_used_tokens (s : RateState) (used : ℚ) : RateState :=
  { s with tokens := s.max_calls - used }

/-- Embedding of `RateLimitContext._acquire_token(weight=1)` (lines 36-50), built from the
source line by line.  `now` is the first `time.monotonic()` reading (line 38);
`now2` is the second reading taken after the `asyncio.sleep` (line 46), and is
only used when the sleep branch is taken.  The returned list holds the duration
of each `asyncio.sleep` performed (empty or a singleton — the source has a
single `if`, no loop). -/
def RateLimitContext.acquire_token (s : RateState) (weight : ℚ) (now now2 : ℚ) :
    RateState × List ℚ :=
  let elapsed := now - s.last
  let tokens1 := min (s.tokens + elapsed * s.rate) s.max_calls
  if tokens1 < weight then
    let sleep_for := (weight - tokens1) / s.rate
    let elapsed2 := now2 - now
    let tokens2 := min (tokens1 + elapsed2 * s.rate) s.max_calls
    ({ s with last := now2, tokens := tokens2 - weight }, [sleep_for])
  else
    ({ s with last := now, tokens := tokens1 - weight }, [])

/-! Refinement target for C1: the spec's description of `acquire`.

Section 4.1 of the spec describes the token-bucket algorithm in its own words;
the following definitions transcribe those words (not the source) so that the
two can be compared.  "compute `elapsed = now - lastRefillTime`;
`tokens = min(capacity, tokens + elapsed * refillRate)`; `lastRefillTime = now`"
is one refill step, and on shortage the spec sleeps
`(weight - tokens) / refillRate` seconds and "repeat[s] the refill computation
once more before debiting"; the debit `tokens -= weight` is unconditional. -/

/-- One refill computation as the spec words it. -/
def specRefill (s : RateState) (now : ℚ) : RateState :=
  { s with tokens := min s.max_calls (s.tokens + (now - s.last) * s.rate)
           last := now }

/-- The spec's `acquire` algorithm, transcribed from the spec's words; returns
the post-state and the sleeps performed. -/
def specAcquire (s : RateState) (weight : ℚ) (now now2 : ℚ) :
    RateState × List ℚ :=
  let s1 := specRefill s now
  if s1.tokens < weight then
    let s2 := specRefill s1 now2
    ({ s2 with tokens := s2.tokens - weight }, [(weight - s1.tokens) / s.rate])
  else
    ({ s1 with tokens := s1.tokens - weight }, [])

/-! Operation sequences on a rate gate (for the balance invariant). -/

/-- One caller-visible operation on a `RateLimitContext`, together with the
timing the runtime supplies: `acquire w e1 e2` is an `_acquire_token(w)` call
whose first `time.monotonic()` reading is `e1` seconds after the stored
`_last`, and whose post-sleep reading (used only when the sleep branch is
taken) is a further `e2` seconds later. -/
inductive GateOp where
  | acquire (w e1 e2 : ℚ)
  | setUsed (u : ℚ)
  deriving Repr

/-- Execute one operation on the gate state. -/
def runOp (s : RateState) : GateOp → RateState
  | .acquire w e1 e2 =>
      (RateLimitContext.acquire_token s w (s.last + e1) (s.last + e1 + e2)).1
  | .setUsed u => RateLimitContext.set_used_tokens s u

/-- Execute a sequence of operations left to right. -/
def runOps (s : RateState) : List GateOp → RateState
  | [] => s
  | op :: ops => runOps (runOp s op) ops

/-- The sleep `_acquire_token` requests when the first refill leaves fewer than
`w` tokens: `(required_tokens - self._tokens) / self._rate` (line 45). -/
def sleepNeed (s : RateState) (w e1 : ℚ) : ℚ :=
  (w - min (s.tokens + e1 * s.rate) s.max_calls) / s.rate

/-- Side conditions under which an operation runs: the weight / used count lie
in `[0, capacity]`, the monotonic clock never goes backwards (`0 ≤ e1`,
`0 ≤ e2`), and `asyncio.sleep(d)` suspends for at least `d` seconds, so when
the sleep branch is taken the second elapsed time is at least the requested
sleep. -/
def ValidOp (s : RateState) : GateOp → Prop
  | .acquire w e1 e2 => 0 ≤ w ∧ w ≤ s.max_calls ∧ 0 ≤ e1 ∧ 0 ≤ e2 ∧
      (min (s.tokens + e1 * s.rate) s.max_calls < w → sleepNeed s w e1 ≤ e2)
  | .setUsed u => 0 ≤ u ∧ u ≤ s.max_calls

/-- A trace is valid when each operation is valid in the state it runs in. -/
def ValidTrace : RateState → List GateOp → Prop
  | _, [] => True
  | s, op :: ops => ValidOp s op ∧ ValidTrace (runOp s op) ops

/-- The token-balance invariant of the data model: `0 ≤ tokens ≤ capacity`. -/
def TokensInv (s : RateState) : Prop :=
  0 ≤ s.tokens ∧ s.tokens ≤ s.max_calls

/-! Section: AsyncClient (`src/client/client.py`, lines 65-148). -/

/-- The response whose `.headers` is passed to `adjust_rate_limit`. -/
inductive HeadersArg where
  | currentResponse
  | previousResponse
  deriving Repr, DecidableEq

/-- The observable steps of `AsyncClient._get` (lines 106-114). -/
inductive ClientEvent where
  | sessionGet                        -- `await self._session.get(url, **kwargs)` (line 111)
  | adjustRateLimit (arg : HeadersArg)  -- `await self._rate_limit_context.adjust_rate_limit(...)` (line 112)
  | limitRequest                      -- `await self._rate_limit_context.limit_request()` (line 113)
  | handleResponse                    -- `await self._handle(response)` (line 114)
  deriving Repr, DecidableEq

/-- Embedding of `AsyncClient._get(endpoint, params=None, **kwargs)` (lines 106-114): builds
the url, then — in source order — issues the session `get`, calls
`adjust_rate_limit` with the headers of the response just received, calls
`limit_request()`, and finally `_handle`.  Returns the url and the event
trace. -/
def AsyncClient.get_run (base_url endpoint : String) (params : Option String) :
    String × List ClientEvent :=
  let url := base_url ++ endpoint
  let url := match params with
    | some p => url ++ "?" ++ p
    | .none => url
  (url, [.sessionGet, .adjustRateLimit .currentResponse, .limitRequest,
         .handleResponse])

/-- A transport response: only its status code matters to `_handle`. -/
structure Response where
  status : Nat
  deriving Repr, DecidableEq

/-- The exceptions `_handle`'s `except` arms anticipate. -/
inductive PyError where
  | httpStatusError   -- `httpx.HTTPStatusError`
  | requestError      -- `httpx.RequestError`
  | otherError        -- any other `Exception`
  deriving Repr, DecidableEq

/-- Embedding of `response.raise_for_status()`: raises `HTTPStatusError` exactly when the
status code is 400 or higher. -/
def Response.raise_for_status (r : Response) : Except PyError Unit :=
  if 400 ≤ r.status then .error .httpStatusError else .ok ()

/-- The `try` block of `_handle` (lines 132-134): `raise_for_status`, then
`return response`.  `fault` injects a transport/connection failure or an
unexpected failure occurring during handling, the cases the remaining
`except` arms anticipate. -/
def handleTryBlock (r : Response) (fault : Option PyError) :
    Except PyError Response :=
  match fault with
  | some e => .error e
  | .none =>
      match r.raise_for_status with
      | .error e => .error e
      | .ok _ => .ok r

/-- Embedding of `AsyncClient._handle` (lines 131-148): run the `try` block; each `except`
arm (HTTP status error, request error, any other exception) only logs, and
control falls through to the final `return response`. -/
def AsyncClient.handle (r : Response) (fault : Option PyError) :
    Except PyError Response :=
  match handleTryBlock r fault with
  | .ok resp => .ok resp
  | .error _ => .ok r

/-! Section: Requestor (`src/client/client.py`, lines 182-258).

Python objects (request results, the configured default) are modelled as
`PyVal` trees living in a heap — a list of objects indexed by address — so
that object identity, `deepcopy`, and mutation are expressible.  Request
parameter values are modelled as strings; only the presence of keys matters
to the source. -/

/-- A Python value, as far as this module inspects one. -/
inductive PyVal where
  | none
  | int (n : Int)
  | str (s : String)
  | list (xs : List PyVal)

/-- Python truthiness, as used by `if not resp:` (line 255). -/
def PyVal.truthy : PyVal → Bool
  | .none => false
  | .int n => n != 0
  | .str s => s != ""
  | .list xs => !xs.isEmpty

/-- The object heap: address `a` holds `heap.getD a .none`. -/
abbrev Heap := List PyVal

/-- Cache keys: (namespace, params), as passed to the `_dbm` calls. -/
abbrev DBKey := String × List (String × String)

/-- The cache contents: an association from (namespace, params) to the stored
value. -/
abbrev DBState := List (DBKey × PyVal)

/-- First stored value for a key, scanning newest entries first. -/
def dbLookup : DBState → DBKey → Option PyVal
  | [], _ => Option.none
  | e :: rest, k => if e.1 = k then some e.2 else dbLookup rest k

/-- Observable side effects of one `Requestor` call. -/
inductive ReqEffect where
  | awaitTask (id : Nat)  -- one queued pre-task awaited (lines 246-247)
  | dbContains            -- `self._dbm.contains_encoded(...)` (line 235)
  | dbFetch               -- `self._dbm.fetch_encoded(...)` issued (line 249)
  | transportCall         -- the compute fn `self._request_func` invoked
  deriving Repr, DecidableEq

/-- Modelled from the spec: `DatabaseManager.fetch_encoded` lives in `..db`,
which is not under `src/`.  Per spec §4.3 and §6, `fetchOrCompute(key,
computeFn, params, shouldSave)` "returns a stored value if present; otherwise
it invokes `computeFn(params)` (which performs the network call through
TransportClient), stores the result only if `shouldSave` is true, and returns
the fresh value".  Returns the value, the updated store, and the effects
performed. -/
def DatabaseManager.fetch_encoded (db : DBState) (ns : String)
    (compute : List (String × String) → PyVal) (params : List (String × String))
    (shouldSave : Bool) : PyVal × DBState × List ReqEffect :=
  match dbLookup db (ns, params) with
  | some v => (v, db, [.dbFetch])
  | .none =>
      let v := compute params
      (v, if shouldSave then ((ns, params), v) :: db else db,
       [.dbFetch, .transportCall])

/-- Modelled from the spec: `DatabaseManager.contains_encoded` (spec §6:
`contains(key, params) -> bool`) — whether the store holds an entry for the
key. -/
def DatabaseManager.contains_encoded (db : DBState) (ns : String)
    (params : List (String × String)) : Bool :=
  (dbLookup db (ns, params)).isSome

/-- The instance state of a `Requestor` (lines 186-206). -/
structure ReqState where
  params : List (String × String)  -- `self.params`
  required_params : List String    -- `self.__required_params`
  async_tasks : List Nat           -- `self.__async_tasks`: queued coroutine ids
  save : Bool                      -- `self._save`
  default_addr : Nat               -- address of `self._default_return_value`
  ns : String                      -- the `namespace` property: `self._client.base_url + self._endpoint` (`namespace` is a Lean keyword)
  deriving Repr, DecidableEq

/-- Embedding of `Requestor.__has_required_params` (lines 216-221): every required key is
present in `self.params`. -/
def Requestor.has_required_params (s : ReqState) : Bool :=
  s.required_params.all (fun p => s.params.any (fun kv => kv.1 == p))

/-- The outcome of one `Requestor.request()` call: the raised error or the
address of the returned object, plus the post heap, store, effect trace, and
instance state. -/
structure RequestOutcome where
  result : Except String Nat
  heap : Heap
  db : DBState
  trace : List ReqEffect
  state : ReqState

/-- Embedding of `Requestor.request()` (lines 239-258), line by line: raise `RuntimeError`
when a required parameter is missing (243); await every queued pre-task in
order (245-247) — the source never clears `self.__async_tasks`; call
`fetch_encoded` (249-254); if the result is falsy, return
`deepcopy(self._default_return_value)` — a structurally equal object at a
fresh address — else return the result as-is (255-258). -/
def Requestor.request (s : ReqState) (heap : Heap) (db : DBState)
    (compute : List (String × String) → PyVal) : RequestOutcome :=
  if Requestor.has_required_params s then
    let awaits := s.async_tasks.map ReqEffect.awaitTask
    let fr := DatabaseManager.fetch_encoded db s.ns compute s.params s.save
    let resp := fr.1
    let heap1 := heap ++ [resp]
    let resp_addr := heap.length
    if resp.truthy then
      { result := .ok resp_addr, heap := heap1, db := fr.2.1,
        trace := awaits ++ fr.2.2, state := s }
    else
      { result := .ok heap1.length,
        heap := heap1 ++ [heap.getD s.default_addr .none],
        db := fr.2.1, trace := awaits ++ fr.2.2, state := s }
  else
    { result := .error "RuntimeError: Required params not set",
      heap := heap, db := db, trace := [], state := s }

/-- Embedding of `Requestor.request_only()` (lines 234-237): return immediately (with no
value — the Python method returns `None`) when the cache already contains the
key; otherwise run `request()` and discard its result.  Components: result,
heap, store, trace, instance state. -/
def Requestor.request_only (s : ReqState) (heap : Heap) (db : DBState)
    (compute : List (String × String) → PyVal) :
    Except String Unit × Heap × DBState × List ReqEffect × ReqState :=
  if DatabaseManager.contains_encoded db s.ns s.params then
    (.ok (), heap, db, [.dbContains], s)
  else
    let out := Requestor.request s heap db compute
    (out.result.map (fun _ => ()), out.heap, out.db,
     .dbContains :: out.trace, out.state)

/-! Theorems.  Each claim's theorem carries the claim id in its doc
comment; helper lemmas precede the claim theorems they support. -/

/-- C1: the source's `_acquire_token` computes exactly what the spec's
token-bucket description says. -/
theorem acquire_token_eq_specAcquire (s : RateState) (weight now now2 : ℚ) :
    RateLimitContext.acquire_token s weight now now2 =
      specAcquire s weight now now2 := by
  simp only [RateLimitContext.acquire_token, specAcquire, specRefill]
  rw [min_comm]
  split <;> simp [min_comm]

lemma runOp_max_calls (s : RateState) (op : GateOp) :
    (runOp s op).max_calls = s.max_calls := by
  cases op with
  | acquire w e1 e2 =>
      simp only [runOp, RateLimitContext.acquire_token]
      split <;> rfl
  | setUsed u => rfl

lemma runOp_rate (s : RateState) (op : GateOp) : (runOp s op).rate = s.rate := by
  cases op with
  | acquire w e1 e2 =>
      simp only [runOp, RateLimitContext.acquire_token]
      split <;> rfl
  | setUsed u => rfl

lemma tokensInv_runOp (s : RateState) (op : GateOp) (hr : 0 < s.rate)
    (hinv : TokensInv s) (hop : ValidOp s op) : TokensInv (runOp s op) := by
  obtain ⟨hlo, hhi⟩ := hinv
  cases op with
  | setUsed u =>
      obtain ⟨hu0, hu1⟩ := hop
      constructor
      · simpa [runOp, RateLimitContext.set_used_tokens, TokensInv] using hu1
      · simp only [runOp, RateLimitContext.set_used_tokens]
        linarith
  | acquire w e1 e2 =>
      obtain ⟨hw0, hw1, he1, he2, hsleep⟩ := hop
      simp only [runOp, RateLimitContext.acquire_token]
      have hsimp : s.last + e1 - s.last = e1 := by ring
      have hsimp2 : s.last + e1 + e2 - (s.last + e1) = e2 := by ring
      rw [hsimp]
      by_cases h : min (s.tokens + e1 * s.rate) s.max_calls < w
      · -- sleep branch: after waiting at least the requested time, the second
        -- refill reaches at least `w` tokens
        rw [if_pos h, hsimp2]
        have hreq := hsleep h
        have hgain : w ≤ min (s.tokens + e1 * s.rate) s.max_calls + e2 * s.rate := by
          unfold sleepNeed at hreq
          have := (div_le_iff₀ hr).mp hreq
          linarith
        refine ⟨?_, ?_⟩
        · show (0 : ℚ) ≤ _ - w
          simp only [sub_nonneg, le_min_iff]
          exact ⟨hgain, hw1⟩
        · show _ - w ≤ s.max_calls
          have hmin : min (min (s.tokens + e1 * s.rate) s.max_calls + e2 * s.rate)
              s.max_calls ≤ s.max_calls := min_le_right _ _
          linarith
      · rw [if_neg h]
        push_neg at h
        refine ⟨?_, ?_⟩
        · show (0 : ℚ) ≤ _ - w
          simp only [sub_nonneg]
          exact h
        · show _ - w ≤ s.max_calls
          have hmin : min (s.tokens + e1 * s.rate) s.max_calls ≤ s.max_calls :=
            min_le_right _ _
          linarith

lemma tokensInv_runOps (s : RateState) (ops : List GateOp) (hr : 0 < s.rate)
    (hinv : TokensInv s) (htr : ValidTrace s ops) : TokensInv (runOps s ops) := by
  induction ops generalizing s with
  | nil => exact hinv
  | cons op ops ih =>
      obtain ⟨hop, htr⟩ := htr
      have hr' : 0 < (runOp s op).rate := by rw [runOp_rate]; exact hr
      exact ih (runOp s op) hr' (tokensInv_runOp s op hr hinv hop) htr

/-- C8 (amended): starting from a freshly constructed gate with positive
`max_calls` and `period`, every valid sequence of operations — `acquire w`
with `0 ≤ w ≤ capacity` under the runtime's timing guarantees, and
`set_used_tokens u` with `0 ≤ u ≤ capacity` — leaves the balance satisfying
`0 ≤ tokens ≤ capacity`; in particular repeated acquires never drive the
balance negative. -/
theorem rateGate_tokens_invariant (max_calls period : Int) (t0 : ℚ)
    (s0 : RateState) (ops : List GateOp)
    (hinit : RateLimitContext.init max_calls period 1 t0 = .ok s0)
    (hmc : 0 < max_calls) (hp : 0 < period)
    (hops : ValidTrace s0 ops) :
    0 ≤ (runOps s0 ops).tokens ∧
      (runOps s0 ops).tokens ≤ (runOps s0 ops).max_calls := by
  have hpne : period ≠ 0 := by omega
  have hs0 : s0 = { max_calls := (max_calls : ℚ)
                    rate := (max_calls : ℚ) / (period : ℚ)
                    tokens := (max_calls : ℚ)
                    last := t0 } := by
    unfold RateLimitContext.init at hinit
    rw [if_neg hpne, if_neg (by norm_num : ¬ (1 : Int) < 0)] at hinit
    exact (Except.ok.injEq _ _).mp hinit.symm
  have hr : 0 < s0.rate := by
    rw [hs0]
    exact div_pos (by exact_mod_cast hmc) (by exact_mod_cast hp)
  have hinv : TokensInv s0 := by
    rw [hs0]
    constructor
    · show (0 : ℚ) ≤ (max_calls : ℚ)
      exact_mod_cast hmc.le
    · show (max_calls : ℚ) ≤ (max_calls : ℚ)
      exact le_refl _
  exact tokensInv_runOps s0 ops hr hinv hops

/-- Witness for C8: a fresh gate with `max_calls = 2`, `period = 1` run through
two full acquires, a third acquire that needs a half-second sleep, and a
`set_used_tokens 1`, ends with a balance inside `[0, capacity]`. -/
theorem rateGate_tokens_invariant_witness :
    0 ≤ (runOps ⟨2, 2, 2, 0⟩
          [.acquire 1 0 0, .acquire 1 0 0, .acquire 1 0 (1/2), .setUsed 1]).tokens ∧
      (runOps ⟨2, 2, 2, 0⟩
          [.acquire 1 0 0, .acquire 1 0 0, .acquire 1 0 (1/2), .setUsed 1]).tokens ≤
        (runOps ⟨2, 2, 2, 0⟩
          [.acquire 1 0 0, .acquire 1 0 0, .acquire 1 0 (1/2), .setUsed 1]).max_calls :=
  rateGate_tokens_invariant 2 1 0 ⟨2, 2, 2, 0⟩
    [.acquire 1 0 0, .acquire 1 0 0, .acquire 1 0 (1/2), .setUsed 1]
    (by norm_num [RateLimitContext.init]) (by norm_num) (by norm_num)
    (by norm_num [ValidTrace, ValidOp, runOp, RateLimitContext.acquire_token,
      RateLimitContext.set_used_tokens, sleepNeed])

/-- Counterexample for C8 as stated: the claim quantifies over every
`acquire(w)` with `w ≤ capacity`, but a negative weight (allowed by that
bound) *credits* tokens and pushes the balance above `capacity`: on the fresh
gate from `RateLimitContext(1, 1)`, `_acquire_token(-5)` leaves 6 tokens,
violating `tokens ≤ capacity = 1`. -/
theorem rateGate_tokens_invariant_counterexample :
    RateLimitContext.init 1 1 1 0 = .ok ⟨1, 1, 1, 0⟩ ∧
    (-5 : ℚ) ≤ (1 : ℚ) ∧
    (RateLimitContext.acquire_token ⟨1, 1, 1, 0⟩ (-5) 0 0).1.tokens = 6 ∧
    ¬ (RateLimitContext.acquire_token ⟨1, 1, 1, 0⟩ (-5) 0 0).1.tokens ≤
        (RateLimitContext.acquire_token ⟨1, 1, 1, 0⟩ (-5) 0 0).1.max_calls := by
  refine ⟨by norm_num [RateLimitContext.init], by norm_num, ?_, ?_⟩ <;>
    norm_num [RateLimitContext.acquire_token]

/-- Counterexample for C9 as stated: `RateLimitContext.__init__` performs no
parameter validation, so `max_calls = 0` and `period = -5` (both ≤ 0, which
the claim says must be rejected) construct successfully. -/
theorem init_counterexample :
    RateLimitContext.init 0 (-5) 1 0 = .ok ⟨0, 0, 0, 0⟩ := by
  norm_num [RateLimitContext.init]

/-- C9 (amended): construction performs no configuration check; with a
nonnegative concurrency bound it fails only for `period = 0` (a
`ZeroDivisionError` from computing the refill rate) and succeeds for every
other `max_calls` and `period`, negative values included. -/
theorem init_succeeds_iff (max_calls period max_concurrency : Int) (t0 : ℚ)
    (hconc : 0 ≤ max_concurrency) :
    (∃ s, RateLimitContext.init max_calls period max_concurrency t0 = .ok s) ↔
      period ≠ 0 := by
  unfold RateLimitContext.init
  constructor
  · rintro ⟨s, hs⟩ hP
    rw [if_pos hP] at hs
    cases hs
  · intro hP
    rw [if_neg hP, if_neg (not_lt.mpr hconc)]
    exact ⟨_, rfl⟩

/-- Witness for C9's amended theorem at `max_calls = 3`, `period = 2`. -/
theorem init_succeeds_iff_witness :
    (∃ s, RateLimitContext.init 3 2 1 0 = .ok s) ↔ (2 : Int) ≠ 0 :=
  init_succeeds_iff 3 2 1 0 (by norm_num)

/-- C10: an `_acquire_token(weight)` call with `weight > capacity` is neither
rejected nor retried: the single `if` performs exactly one sleep, the second
refill is clamped to `capacity`, the debit happens unconditionally, and the
call returns with a strictly negative balance. -/
theorem acquire_token_overweight (s : RateState) (w now now2 : ℚ)
    (hw : s.max_calls < w) :
    (RateLimitContext.acquire_token s w now now2).2.length = 1 ∧
    (RateLimitContext.acquire_token s w now now2).1.tokens =
      min (min (s.tokens + (now - s.last) * s.rate) s.max_calls
            + (now2 - now) * s.rate) s.max_calls - w ∧
    (RateLimitContext.acquire_token s w now now2).1.tokens < 0 := by
  have h1 : min (s.tokens + (now - s.last) * s.rate) s.max_calls < w :=
    lt_of_le_of_lt (min_le_right _ _) hw
  simp only [RateLimitContext.acquire_token]
  rw [if_pos h1]
  refine ⟨rfl, rfl, ?_⟩
  show min (min (s.tokens + (now - s.last) * s.rate) s.max_calls
        + (now2 - now) * s.rate) s.max_calls - w < 0
  have h2 : min (min (s.tokens + (now - s.last) * s.rate) s.max_calls
      + (now2 - now) * s.rate) s.max_calls ≤ s.max_calls := min_le_right _ _
  linarith

/-- Counterexample for C2 as stated: in `_get` the network call is the *first*
event — it happens before `limit_request` (the acquire) returns, and the
feedback adjustment uses the current response's headers, not the previous
response's.  The claimed order `[adjust prev, acquire, network, handle]` is
not the trace the code produces. -/
theorem get_order_counterexample :
    (AsyncClient.get_run "https://api" "/x" Option.none).2 =
      [.sessionGet, .adjustRateLimit .currentResponse, .limitRequest,
       .handleResponse] ∧
    (AsyncClient.get_run "https://api" "/x" Option.none).2 ≠
      [.adjustRateLimit .previousResponse, .limitRequest, .sessionGet,
       .handleResponse] ∧
    ((AsyncClient.get_run "https://api" "/x" Option.none).2.indexOf
        ClientEvent.sessionGet <
      (AsyncClient.get_run "https://api" "/x" Option.none).2.indexOf
        ClientEvent.limitRequest) := by
  refine ⟨rfl, by simp [AsyncClient.get_run], by decide⟩

/-- C2 (amended): every `_get` performs, in this order: (a) the network call,
(b) `adjust_rate_limit` with the *current* response's headers, (c) `acquire`
via `limit_request()`, (d) the shared response-handling path; the network call
is always issued before the rate gate's acquire. -/
theorem get_order (base_url endpoint : String) (params : Option String) :
    (AsyncClient.get_run base_url endpoint params).2 =
      [.sessionGet, .adjustRateLimit .currentResponse, .limitRequest,
       .handleResponse] := rfl

/-- C3: for every response status and every anticipated failure mode, `_handle`
returns the raw response and never lets an exception escape. -/
theorem handle_never_raises (r : Response) (fault : Option PyError) :
    AsyncClient.handle r fault = .ok r := by
  cases fault with
  | some e => rfl
  | none =>
      simp only [AsyncClient.handle, handleTryBlock, Response.raise_for_status]
      by_cases h : 400 ≤ r.status
      · rw [if_pos h]
      · rw [if_neg h]

/-- Witness for C10: gate `⟨1, 1, 1, 0⟩` with `weight = 2 > capacity = 1`
sleeps once and ends at `-1` tokens. -/
theorem acquire_token_overweight_witness :
    (RateState.mk 1 1 1 0).max_calls < 2 ∧
    ((RateLimitContext.acquire_token ⟨1, 1, 1, 0⟩ 2 0 1).2.length = 1 ∧
      (RateLimitContext.acquire_token ⟨1, 1, 1, 0⟩ 2 0 1).1.tokens =
        min (min ((RateState.mk 1 1 1 0).tokens
              + ((0 : ℚ) - (RateState.mk 1 1 1 0).last) * (RateState.mk 1 1 1 0).rate)
            (RateState.mk 1 1 1 0).max_calls
            + ((1 : ℚ) - 0) * (RateState.mk 1 1 1 0).rate)
          (RateState.mk 1 1 1 0).max_calls - 2 ∧
      (RateLimitContext.acquire_token ⟨1, 1, 1, 0⟩ 2 0 1).1.tokens < 0) :=
  ⟨by norm_num, acquire_token_overweight ⟨1, 1, 1, 0⟩ 2 0 1 (by norm_num)⟩

lemma heap_getD_append_left (l l' : Heap) (n : Nat) (h : n < l.length) :
    (l ++ l').getD n PyVal.none = l.getD n PyVal.none := by
  simp [List.getD_eq_getElem?_getD, List.getElem?_append_left h]

lemma heap_getD_concat_length (l : Heap) (a : PyVal) :
    (l ++ [a]).getD l.length PyVal.none = a := by
  simp [List.getD_eq_getElem?_getD, List.getElem?_concat_length]

lemma heap_getD_set_ne (l : Heap) (i j : Nat) (v : PyVal) (h : i ≠ j) :
    (l.set i v).getD j PyVal.none = l.getD j PyVal.none := by
  simp [List.getD_eq_getElem?_getD, List.getElem?_set_ne h]

lemma dbLookup_cons_self (k : DBKey) (v : PyVal) (db : DBState) :
    dbLookup ((k, v) :: db) k = some v := by
  simp [dbLookup]

/-- C4: `request()` raises the configuration error exactly when a required
parameter is missing, and does so before any activity — no pre-task awaited,
no cache fetch, no transport call, heap and store untouched; with all required
parameters present it never raises the configuration error. -/
theorem request_config_error (s : ReqState) (heap : Heap) (db : DBState)
    (compute : List (String × String) → PyVal) :
    (Requestor.has_required_params s = false →
      (Requestor.request s heap db compute).result =
          .error "RuntimeError: Required params not set" ∧
        (Requestor.request s heap db compute).trace = [] ∧
        (Requestor.request s heap db compute).heap = heap ∧
        (Requestor.request s heap db compute).db = db) ∧
    (Requestor.has_required_params s = true →
      ∃ a, (Requestor.request s heap db compute).result = .ok a) := by
  constructor
  · intro h
    simp [Requestor.request, h]
  · intro h
    simp only [Requestor.request, h, if_true]
    by_cases ht : (DatabaseManager.fetch_encoded db s.ns compute s.params
        s.save).1.truthy
    · rw [if_pos ht]
      exact ⟨heap.length, rfl⟩
    · rw [if_neg ht]
      exact ⟨(heap ++ [(DatabaseManager.fetch_encoded db s.ns compute s.params
          s.save).1]).length, rfl⟩

/-- Witness for C4: a requestor missing required key `"x"` errors with an
empty effect trace; the same requestor with `"x"` set succeeds. -/
theorem request_config_error_witness :
    ((Requestor.request ⟨[], ["x"], [], true, 0, "ns"⟩ [] []
          (fun _ => PyVal.none)).result =
        .error "RuntimeError: Required params not set" ∧
      (Requestor.request ⟨[], ["x"], [], true, 0, "ns"⟩ [] []
          (fun _ => PyVal.none)).trace = [] ∧
      (Requestor.request ⟨[], ["x"], [], true, 0, "ns"⟩ [] []
          (fun _ => PyVal.none)).heap = [] ∧
      (Requestor.request ⟨[], ["x"], [], true, 0, "ns"⟩ [] []
          (fun _ => PyVal.none)).db = []) ∧
    (∃ a, (Requestor.request ⟨[("x", "1")], ["x"], [], true, 0, "ns"⟩ [] []
        (fun _ => PyVal.none)).result = .ok a) :=
  ⟨(request_config_error ⟨[], ["x"], [], true, 0, "ns"⟩ [] []
      (fun _ => PyVal.none)).1 rfl,
   (request_config_error ⟨[("x", "1")], ["x"], [], true, 0, "ns"⟩ [] []
      (fun _ => PyVal.none)).2 rfl⟩

/-- C5: with a configured default and valid params, a falsy fetch result makes
`request()` return a fresh deep copy of the default — structurally equal to
it, at a new address distinct from the default's, so that overwriting the
returned object leaves the stored default untouched; a truthy fetch result is
returned as-is. -/
theorem request_default_deepcopy (s : ReqState) (heap : Heap) (db : DBState)
    (compute : List (String × String) → PyVal)
    (hp : Requestor.has_required_params s = true)
    (hd : s.default_addr < heap.length) :
    ((DatabaseManager.fetch_encoded db s.ns compute s.params s.save).1.truthy
        = false →
      (Requestor.request s heap db compute).result = .ok (heap.length + 1) ∧
      (Requestor.request s heap db compute).heap.getD (heap.length + 1)
          PyVal.none = heap.getD s.default_addr PyVal.none ∧
      heap.length + 1 ≠ s.default_addr ∧
      ∀ v, ((Requestor.request s heap db compute).heap.set (heap.length + 1)
          v).getD s.default_addr PyVal.none =
        heap.getD s.default_addr PyVal.none) ∧
    ((DatabaseManager.fetch_encoded db s.ns compute s.params s.save).1.truthy
        = true →
      (Requestor.request s heap db compute).result = .ok heap.length ∧
      (Requestor.request s heap db compute).heap.getD heap.length PyVal.none =
        (DatabaseManager.fetch_encoded db s.ns compute s.params s.save).1) := by
  have hlen : (heap ++ [(DatabaseManager.fetch_encoded db s.ns compute s.params
      s.save).1]).length = heap.length + 1 := by simp
  constructor
  · intro hfalse
    simp only [Requestor.request, hp, if_true, hfalse, Bool.false_eq_true,
      if_false]
    refine ⟨by rw [hlen], ?_, by omega, ?_⟩
    · rw [← hlen, heap_getD_concat_length]
    · intro v
      rw [heap_getD_set_ne _ _ _ _ (by omega), List.append_assoc,
        heap_getD_append_left _ _ _ hd]
  · intro htrue
    simp [Requestor.request, hp, htrue, heap_getD_concat_length]

/-- Witness for C5: default `[]` at address 0, fetch computing `None` — the
returned object at address 2 is a copy of `[]`, and overwriting it leaves the
default unchanged. -/
theorem request_default_deepcopy_witness :
    Requestor.has_required_params ⟨[("x", "1")], ["x"], [], true, 0, "ns"⟩
        = true ∧
    (0 : Nat) < 1 ∧
    (((DatabaseManager.fetch_encoded [] "ns" (fun _ => PyVal.none)
          [("x", "1")] true).1.truthy = false →
        (Requestor.request ⟨[("x", "1")], ["x"], [], true, 0, "ns"⟩
            [PyVal.list []] [] (fun _ => PyVal.none)).result = .ok 2 ∧
        (Requestor.request ⟨[("x", "1")], ["x"], [], true, 0, "ns"⟩
            [PyVal.list []] [] (fun _ => PyVal.none)).heap.getD 2 PyVal.none =
          [PyVal.list []].getD 0 PyVal.none ∧
        (2 : Nat) ≠ 0 ∧
        ∀ v, ((Requestor.request ⟨[("x", "1")], ["x"], [], true, 0, "ns"⟩
            [PyVal.list []] [] (fun _ => PyVal.none)).heap.set 2 v).getD 0
            PyVal.none = [PyVal.list []].getD 0 PyVal.none) ∧
      ((DatabaseManager.fetch_encoded [] "ns" (fun _ => PyVal.none)
          [("x", "1")] true).1.truthy = true →
        (Requestor.request ⟨[("x", "1")], ["x"], [], true, 0, "ns"⟩
            [PyVal.list []] [] (fun _ => PyVal.none)).result = .ok 1 ∧
        (Requestor.request ⟨[("x", "1")], ["x"], [], true, 0, "ns"⟩
            [PyVal.list []] [] (fun _ => PyVal.none)).heap.getD 1 PyVal.none =
          (DatabaseManager.fetch_encoded [] "ns" (fun _ => PyVal.none)
            [("x", "1")] true).1)) :=
  ⟨rfl, by decide,
   request_default_deepcopy ⟨[("x", "1")], ["x"], [], true, 0, "ns"⟩
     [PyVal.list []] [] (fun _ => PyVal.none) rfl (by decide)⟩

/-- C6 (code bug): `request()` never clears `self.__async_tasks` — lines
245-247 await each queued coroutine but no line resets the list.  With one
queued pre-task, a first successful `request()` still leaves the task queued
and a second `request()` on the same instance awaits the very same,
already-consumed coroutine again (in Python: `RuntimeError: cannot reuse
already awaited coroutine`). -/
theorem request_tasks_not_cleared :
    (Requestor.request ⟨[("x", "1")], ["x"], [0], true, 0, "ns"⟩
        [PyVal.list []] [] (fun _ => PyVal.none)).state.async_tasks = [0] ∧
    (Requestor.request ⟨[("x", "1")], ["x"], [0], true, 0, "ns"⟩
        [PyVal.list []] [] (fun _ => PyVal.none)).trace =
      [.awaitTask 0, .dbFetch, .transportCall] ∧
    (Requestor.request
        (Requestor.request ⟨[("x", "1")], ["x"], [0], true, 0, "ns"⟩
            [PyVal.list []] [] (fun _ => PyVal.none)).state
        (Requestor.request ⟨[("x", "1")], ["x"], [0], true, 0, "ns"⟩
            [PyVal.list []] [] (fun _ => PyVal.none)).heap
        (Requestor.request ⟨[("x", "1")], ["x"], [0], true, 0, "ns"⟩
            [PyVal.list []] [] (fun _ => PyVal.none)).db
        (fun _ => PyVal.none)).trace = [.awaitTask 0, .dbFetch] :=
  ⟨rfl, rfl, rfl⟩

/-- Counterexample for C7 as stated: after a save-enabled `request()` stores
`[1]` under (namespace, params), the subsequent `request_only()` with the same
params does *not* return the stored value — the source's `request_only` ends
in a bare `return` on a cache hit (and discards `request()`'s result
otherwise), so its result is always `None`, while the stored value is
`[1]`. -/
theorem request_only_counterexample :
    dbLookup (Requestor.request ⟨[("x", "1")], ["x"], [], true, 0, "rt"⟩
        [] [] (fun _ => PyVal.list [PyVal.int 1])).db ("rt", [("x", "1")]) =
      some (PyVal.list [PyVal.int 1]) ∧
    (Requestor.request_only ⟨[("x", "1")], ["x"], [], true, 0, "rt"⟩
        (Requestor.request ⟨[("x", "1")], ["x"], [], true, 0, "rt"⟩
          [] [] (fun _ => PyVal.list [PyVal.int 1])).heap
        (Requestor.request ⟨[("x", "1")], ["x"], [], true, 0, "rt"⟩
          [] [] (fun _ => PyVal.list [PyVal.int 1])).db
        (fun _ => PyVal.list [PyVal.int 1])).1 = .ok () ∧
    (Requestor.request_only ⟨[("x", "1")], ["x"], [], true, 0, "rt"⟩
        (Requestor.request ⟨[("x", "1")], ["x"], [], true, 0, "rt"⟩
          [] [] (fun _ => PyVal.list [PyVal.int 1])).heap
        (Requestor.request ⟨[("x", "1")], ["x"], [], true, 0, "rt"⟩
          [] [] (fun _ => PyVal.list [PyVal.int 1])).db
        (fun _ => PyVal.list [PyVal.int 1])).2.2.2.1 = [.dbContains] :=
  ⟨rfl, rfl, rfl⟩

/-- C7 (amended): after a save-enabled `request()` whose compute yields a
truthy value for a previously absent (namespace, params) key, the value is in
the cache; a subsequent `request_only()` with the same params performs only
the `contains` check — it issues no fetch and no transport call, leaves the
store unchanged, and returns `None` (no value); the stored value is returned
structurally unchanged by a subsequent `request()`. -/
theorem request_only_after_save (s : ReqState) (heap : Heap) (db : DBState)
    (compute : List (String × String) → PyVal)
    (hp : Requestor.has_required_params s = true)
    (hsave : s.save = true)
    (hmiss : dbLookup db (s.ns, s.params) = Option.none)
    (htruthy : (compute s.params).truthy = true) :
    dbLookup (Requestor.request s heap db compute).db (s.ns, s.params) =
      some (compute s.params) ∧
    (Requestor.request_only s (Requestor.request s heap db compute).heap
        (Requestor.request s heap db compute).db compute).1 = .ok () ∧
    (Requestor.request_only s (Requestor.request s heap db compute).heap
        (Requestor.request s heap db compute).db compute).2.2.1 =
      (Requestor.request s heap db compute).db ∧
    (Requestor.request_only s (Requestor.request s heap db compute).heap
        (Requestor.request s heap db compute).db compute).2.2.2.1 =
      [.dbContains] ∧
    (Requestor.request s (Requestor.request s heap db compute).heap
        (Requestor.request s heap db compute).db compute).result =
      .ok (Requestor.request s heap db compute).heap.length ∧
    (Requestor.request s (Requestor.request s heap db compute).heap
        (Requestor.request s heap db compute).db compute).heap.getD
        (Requestor.request s heap db compute).heap.length PyVal.none =
      compute s.params := by
  have hfetch : DatabaseManager.fetch_encoded db s.ns compute s.params s.save =
      (compute s.params, ((s.ns, s.params), compute s.params) :: db,
       [.dbFetch, .transportCall]) := by
    simp [DatabaseManager.fetch_encoded, hmiss, hsave]
  have hr1 : Requestor.request s heap db compute =
      { result := .ok heap.length,
        heap := heap ++ [compute s.params],
        db := ((s.ns, s.params), compute s.params) :: db,
        trace := s.async_tasks.map ReqEffect.awaitTask ++
          [.dbFetch, .transportCall],
        state := s } := by
    simp [Requestor.request, hp, hfetch, htruthy]
  rw [hr1]
  refine ⟨dbLookup_cons_self _ _ _, ?_, ?_, ?_, ?_, ?_⟩
  · simp [Requestor.request_only, DatabaseManager.contains_encoded,
      dbLookup_cons_self]
  · simp [Requestor.request_only, DatabaseManager.contains_encoded,
      dbLookup_cons_self]
  · simp [Requestor.request_only, DatabaseManager.contains_encoded,
      dbLookup_cons_self]
  · simp [Requestor.request, hp, htruthy, DatabaseManager.fetch_encoded,
      dbLookup_cons_self, hsave]
  · simp [Requestor.request, hp, htruthy, DatabaseManager.fetch_encoded,
      dbLookup_cons_self, hsave, heap_getD_concat_length]
    rw [List.getElem_append_right (by simp)]
    simp

/-- Witness for C7's amended theorem: the round trip at a concrete requestor
storing `[1]` under `("rt2", x=1)`. -/
theorem request_only_after_save_witness :
    Requestor.has_required_params ⟨[("x", "1")], ["x"], [], true, 0, "rt2"⟩
        = true ∧
    dbLookup [] ("rt2", [("x", "1")]) = Option.none ∧
    (PyVal.truthy (PyVal.list [PyVal.int 1]) = true) ∧
    (dbLookup (Requestor.request ⟨[("x", "1")], ["x"], [], true, 0, "rt2"⟩
          [] [] (fun _ => PyVal.list [PyVal.int 1])).db ("rt2", [("x", "1")]) =
        some (PyVal.list [PyVal.int 1]) ∧
      (Requestor.request_only ⟨[("x", "1")], ["x"], [], true, 0, "rt2"⟩
          (Requestor.request ⟨[("x", "1")], ["x"], [], true, 0, "rt2"⟩
            [] [] (fun _ => PyVal.list [PyVal.int 1])).heap
          (Requestor.request ⟨[("x", "1")], ["x"], [], true, 0, "rt2"⟩
            [] [] (fun _ => PyVal.list [PyVal.int 1])).db
          (fun _ => PyVal.list [PyVal.int 1])).1 = .ok () ∧
      (Requestor.request_only ⟨[("x", "1")], ["x"], [], true, 0, "rt2"⟩
          (Requestor.request ⟨[("x", "1")], ["x"], [], true, 0, "rt2"⟩
            [] [] (fun _ => PyVal.list [PyVal.int 1])).heap
          (Requestor.request ⟨[("x", "1")], ["x"], [], true, 0, "rt2"⟩
            [] [] (fun _ => PyVal.list [PyVal.int 1])).db
          (fun _ => PyVal.list [PyVal.int 1])).2.2.1 =
        (Requestor.request ⟨[("x", "1")], ["x"], [], true, 0, "rt2"⟩
          [] [] (fun _ => PyVal.list [PyVal.int 1])).db ∧
      (Requestor.request_only ⟨[("x", "1")], ["x"], [], true, 0, "rt2"⟩
          (Requestor.request ⟨[("x", "1")], ["x"], [], true, 0, "rt2"⟩
            [] [] (fun _ => PyVal.list [PyVal.int 1])).heap
          (Requestor.request ⟨[("x", "1")], ["x"], [], true, 0, "rt2"⟩
            [] [] (fun _ => PyVal.list [PyVal.int 1])).db
          (fun _ => PyVal.list [PyVal.int 1])).2.2.2.1 = [.dbContains] ∧
      (Requestor.request ⟨[("x", "1")], ["x"], [], true, 0, "rt2"⟩
          (Requestor.request ⟨[("x", "1")], ["x"], [], true, 0, "rt2"⟩
            [] [] (fun _ => PyVal.list [PyVal.int 1])).heap
          (Requestor.request ⟨[("x", "1")], ["x"], [], true, 0, "rt2"⟩
            [] [] (fun _ => PyVal.list [PyVal.int 1])).db
          (fun _ => PyVal.list [PyVal.int 1])).result =
        .ok (Requestor.request ⟨[("x", "1")], ["x"], [], true, 0, "rt2"⟩
          [] [] (fun _ => PyVal.list [PyVal.int 1])).heap.length ∧
      (Requestor.request ⟨[("x", "1")], ["x"], [], true, 0, "rt2"⟩
          (Requestor.request ⟨[("x", "1")], ["x"], [], true, 0, "rt2"⟩
            [] [] (fun _ => PyVal.list [PyVal.int 1])).heap
          (Requestor.request ⟨[("x", "1")], ["x"], [], true, 0, "rt2"⟩
            [] [] (fun _ => PyVal.list [PyVal.int 1])).db
          (fun _ => PyVal.list [PyVal.int 1])).heap.getD
          (Requestor.request ⟨[("x", "1")], ["x"], [], true, 0, "rt2"⟩
            [] [] (fun _ => PyVal.list [PyVal.int 1])).heap.length PyVal.none =
        PyVal.list [PyVal.int 1]) :=
  ⟨rfl, rfl, rfl,
   request_only_after_save ⟨[("x", "1")], ["x"], [], true, 0, "rt2"⟩ [] []
     (fun _ => PyVal.list [PyVal.int 1]) rfl rfl rfl rfl⟩

end Httpxdb
